import Mathlib

/-!
Verification of the random-chat bot core: the Firestore-backed data layer
(`database.py`), the spam-protection module (`spam_protection.py`), the
user-facing handlers (`bot.py`) and the admin handlers (`admin.py`) are
embedded as pure state-passing functions.  Timestamps are modelled as `Int`
time units (seconds); identities are `Nat`.
-/

namespace RandomChatBot

/-! ### config.py -/

/-- `config.MAX_MESSAGES_PER_MINUTE = 20`. -/
def MAX_MESSAGES_PER_MINUTE : Nat := 20

/-- `config.COMMAND_COOLDOWN_SECONDS = 3`. -/
def COMMAND_COOLDOWN_SECONDS : Int := 3

/-! ### spam_protection.py

`SpamProtection` keeps two in-memory dicts: `message_history : user_id ->
list of timestamps` and `command_history : user_id -> last command
timestamp`.  Dicts are embedded as association lists; `datetime.now()`
becomes an explicit `now : Int` argument. -/

/-- Lookup in an association list keyed by `Nat` (first match wins, as a
Python dict has unique keys). -/
def assocFind {β : Type} (l : List (Nat × β)) (k : Nat) : Option β :=
  match l with
  | [] => none
  | (k', v) :: rest => if k' = k then some v else assocFind rest k

/-- Dict assignment `d[k] = v`: replace the entry if present, else append. -/
def assocSet {β : Type} (l : List (Nat × β)) (k : Nat) (v : β) : List (Nat × β) :=
  match l with
  | [] => [(k, v)]
  | (k', v') :: rest => if k' = k then (k, v) :: rest else (k', v') :: assocSet rest k v

/-- The `SpamProtection` instance state. -/
structure SpamProtection where
  message_history : List (Nat × List Int)
  command_history : List (Nat × Int)
deriving DecidableEq

/-- `self.message_history.get(user_id, [])` (the code inserts `[]` when the
key is missing before reading it back). -/
def SpamProtection.getHistory (sp : SpamProtection) (u : Nat) : List Int :=
  (assocFind sp.message_history u).getD []

/-- `SpamProtection.check_message_rate`: evict timestamps `ts` with
`ts <= now - 60` (the code keeps `ts > one_minute_ago`), write the evicted
list back, then reject if at least `MAX_MESSAGES_PER_MINUTE` remain;
otherwise append `now` and accept.  Returns `(allowed, new state)`. -/
def check_message_rate (sp : SpamProtection) (u : Nat) (now : Int) :
    Bool × SpamProtection :=
  let kept := (sp.getHistory u).filter (fun ts => now - 60 < ts)
  if MAX_MESSAGES_PER_MINUTE ≤ kept.length then
    (false, { sp with message_history := assocSet sp.message_history u kept })
  else
    (true, { sp with message_history := assocSet sp.message_history u (kept ++ [now]) })

/-- `SpamProtection.check_command_cooldown`: if a last-command timestamp is
stored and `now < last + COMMAND_COOLDOWN_SECONDS`, reject (the early
`return False` leaves the dict untouched); otherwise store `now` and
accept. -/
def check_command_cooldown (sp : SpamProtection) (u : Nat) (now : Int) :
    Bool × SpamProtection :=
  match assocFind sp.command_history u with
  | some last =>
      if now < last + COMMAND_COOLDOWN_SECONDS then
        (false, sp)
      else
        (true, { sp with command_history := assocSet sp.command_history u now })
  | none => (true, { sp with command_history := assocSet sp.command_history u now })

/-- Run a sequence of message sends (each element a `now` value) through
`check_message_rate`, collecting the verdicts. -/
def runMessages (sp : SpamProtection) (u : Nat) : List Int → List Bool × SpamProtection
  | [] => ([], sp)
  | t :: ts =>
      let (b, sp') := check_message_rate sp u t
      let (bs, sp'') := runMessages sp' u ts
      (b :: bs, sp'')

/-- Run a sequence of command attempts through `check_command_cooldown`,
keeping only the final state. -/
def runCommands (sp : SpamProtection) (u : Nat) : List Int → SpamProtection
  | [] => sp
  | t :: ts => runCommands (check_command_cooldown sp u t).2 u ts

/-- The fresh global instance `spam_protection = SpamProtection()`. -/
def SpamProtection.empty : SpamProtection := ⟨[], []⟩

/-! ### database.py

The four Firestore collections become four fields of a `DB` record.  A
`users` document is keyed by `str(user_id)`; we key the association list by
the `Nat` id directly.  `joined_at`/`started_at`/`timestamp` fields that no
claim reads are dropped from the documents, except `added_at` on queue
entries, which drives `get_next_from_queue`'s ordering. -/

/-- A `users` collection document. -/
structure UserDoc where
  blocked : Bool
  current_chat_with : Option Nat
  total_chats : Nat
  reports_count : Nat
deriving DecidableEq

/-- A `waiting_queue` collection document (`user_id`, `added_at`). -/
structure QueueEntry where
  user_id : Nat
  added_at : Int
deriving DecidableEq

/-- An `active_chats` collection document. -/
structure ChatDoc where
  user1_id : Nat
  user2_id : Nat
deriving DecidableEq

/-- A `reports` collection document. -/
structure ReportDoc where
  reporter_id : Nat
  reported_id : Nat
  reason : String
  resolved : Bool
deriving DecidableEq

/-- The whole Firestore state. -/
structure DB where
  users : List (Nat × UserDoc)
  active_chats : List ChatDoc
  reports : List ReportDoc
  waiting_queue : List QueueEntry
deriving DecidableEq

/-- A fresh user document as written by `Database.create_user`. -/
def newUserDoc : UserDoc :=
  { blocked := false, current_chat_with := none, total_chats := 0, reports_count := 0 }

namespace Database

/-- `Database.get_user`. -/
def get_user (db : DB) (uid : Nat) : Option UserDoc :=
  assocFind db.users uid

/-- `Database.user_exists`. -/
def user_exists (db : DB) (uid : Nat) : Bool :=
  (get_user db uid).isSome

/-- `Database.create_user`: `user_ref.set(...)` is an upsert on the
document keyed by the id. -/
def create_user (db : DB) (uid : Nat) : DB :=
  { db with users := assocSet db.users uid newUserDoc }

/-- Rewrite the document keyed `uid` (a no-op when it is absent). -/
def updateAssoc (l : List (Nat × UserDoc)) (uid : Nat) (f : UserDoc → UserDoc) :
    List (Nat × UserDoc) :=
  match l with
  | [] => []
  | (k, v) :: rest => (if k = uid then (k, f v) else (k, v)) :: updateAssoc rest uid f

/-- Firestore `user_ref.update(...)`: modify the document keyed by the id.
The flows modelled here only ever update documents they know exist (a
missing document would make the real client raise, committing nothing for
that document); the embedding makes such an update a no-op instead. -/
def update_user (db : DB) (uid : Nat) (f : UserDoc → UserDoc) : DB :=
  { db with users := updateAssoc db.users uid f }

/-- `Database.is_blocked`: `False` when the user document is missing. -/
def is_blocked (db : DB) (uid : Nat) : Bool :=
  match get_user db uid with
  | some u => u.blocked
  | none => false

/-- `Database.block_user`. -/
def block_user (db : DB) (uid : Nat) : DB :=
  update_user db uid (fun u => { u with blocked := true })

/-- `Database.unblock_user`. -/
def unblock_user (db : DB) (uid : Nat) : DB :=
  update_user db uid (fun u => { u with blocked := false })

/-- `Database.get_current_chat`: `None` when the user document is missing. -/
def get_current_chat (db : DB) (uid : Nat) : Option Nat :=
  (get_user db uid).bind (fun u => u.current_chat_with)

/-- `Database.is_in_chat`. -/
def is_in_chat (db : DB) (uid : Nat) : Bool :=
  (get_current_chat db uid).isSome

/-- `Database.create_chat`: append a chat document, then update both user
documents (`current_chat_with` to the other id, `total_chats + 1`). -/
def create_chat (db : DB) (u1 u2 : Nat) : DB :=
  let db1 := { db with active_chats := db.active_chats ++ [⟨u1, u2⟩] }
  let db2 := update_user db1 u1
    (fun u => { u with current_chat_with := some u2, total_chats := u.total_chats + 1 })
  update_user db2 u2
    (fun u => { u with current_chat_with := some u1, total_chats := u.total_chats + 1 })

/-- `Database.end_chat`: read the partner; `if not partner_id` is Python
truthiness, so both a missing partner and the (never-issued) id `0` take
the early `return None`, leaving the database untouched.  Otherwise clear
both `current_chat_with` fields, delete every chat document whose
`user1_id` or `user2_id` is `uid`, and return the partner. -/
def end_chat (db : DB) (uid : Nat) : Option Nat × DB :=
  match get_current_chat db uid with
  | none => (none, db)
  | some p =>
      if p = 0 then (none, db)
      else
        let db1 := update_user db uid (fun u => { u with current_chat_with := none })
        let db2 := update_user db1 p (fun u => { u with current_chat_with := none })
        let chats1 := db2.active_chats.filter (fun c => c.user1_id ≠ uid)
        let chats2 := chats1.filter (fun c => c.user2_id ≠ uid)
        let db3 := { db2 with active_chats := chats2 }
        (some p, db3)

/-- `Database.add_to_queue`: `queue_ref.set` keyed by the id is an upsert;
`added_at` is stamped with the current time. -/
def add_to_queue (db : DB) (uid : Nat) (now : Int) : DB :=
  { db with waiting_queue :=
      (db.waiting_queue.filter (fun e => e.user_id ≠ uid)) ++ [⟨uid, now⟩] }

/-- `Database.remove_from_queue`: delete the document keyed by the id. -/
def remove_from_queue (db : DB) (uid : Nat) : DB :=
  { db with waiting_queue := db.waiting_queue.filter (fun e => e.user_id ≠ uid) }

/-- `Database.is_in_queue`. -/
def is_in_queue (db : DB) (uid : Nat) : Bool :=
  db.waiting_queue.any (fun e => e.user_id = uid)

/-- Fold computing the entry `order_by('added_at').limit(1)` selects: the
one with the smallest `added_at` (the first such in document order when
timestamps tie). -/
def minByAdded (e : QueueEntry) (es : List QueueEntry) : QueueEntry :=
  es.foldl (fun best x => if x.added_at < best.added_at then x else best) e

/-- `Database.get_next_from_queue`: a read-only query — it returns the
`user_id` of the earliest-`added_at` queue entry (or `None` on an empty
queue) and performs no write, so the state component is the input state. -/
def get_next_from_queue (db : DB) : Option Nat × DB :=
  match db.waiting_queue with
  | [] => (none, db)
  | e :: es => (some (minByAdded e es).user_id, db)

/-- `Database.create_report`: append the report document (`resolved :=
False`), then increment `reports_count` on the reported user. -/
def create_report (db : DB) (reporter reported : Nat) (reason : String) : DB :=
  let db1 := { db with reports := db.reports ++ [⟨reporter, reported, reason, false⟩] }
  update_user db1 reported (fun u => { u with reports_count := u.reports_count + 1 })

end Database

/-! ### bot.py / admin.py handlers

Each handler becomes a function from the combined state (database +
spam-protection instance) to a new state plus the list of outbound
messages `(recipient, message)` it emits — `reply_text` addresses the
acting user, `bot.send_message` addresses the given chat id.  Message
texts are abstracted to their template names. -/

/-- The shared mutable state of the process. -/
structure BotState where
  db : DB
  spam : SpamProtection
deriving DecidableEq

/-- Outbound message templates (from `messages.py` and inline strings). -/
inductive Out where
  | welcome
  | blockedUser
  | cooldownWait
  | alreadyInChat
  | alreadySearching
  | matchedMessage
  | searchingMessage
  | searchCancelled
  | youDisconnected
  | partnerDisconnected
  | notInChat
  | reportNoChat
  | reportInstruction
  | reportSubmitted
  | notAdmin
  | adminUsage
  | adminUserNotFound
  | adminUserBlocked
deriving DecidableEq

/-- `bot.start`: create the user document if absent, then reply
`BLOCKED_USER` or the welcome message. -/
def startHandler (st : BotState) (uid : Nat) : BotState × List (Nat × Out) :=
  let db1 := if Database.user_exists st.db uid then st.db else Database.create_user st.db uid
  let st1 := { st with db := db1 }
  if Database.is_blocked db1 uid then (st1, [(uid, Out.blockedUser)])
  else (st1, [(uid, Out.welcome)])

/-- `bot.search`: blocked check, command cooldown, already-in-chat check,
already-in-queue check; then peek the queue — `if partner_id and
partner_id != user_id` is Python truthiness, so `None`, `0` and the
requester's own id all fall through to the enqueue branch; otherwise
remove the partner from the queue, create the chat and notify both
sides. -/
def search (st : BotState) (uid : Nat) (now : Int) : BotState × List (Nat × Out) :=
  if Database.is_blocked st.db uid then (st, [(uid, Out.blockedUser)])
  else
    let cc := check_command_cooldown st.spam uid now
    let st1 := { st with spam := cc.2 }
    if !cc.1 then (st1, [(uid, Out.cooldownWait)])
    else if Database.is_in_chat st1.db uid then (st1, [(uid, Out.alreadyInChat)])
    else if Database.is_in_queue st1.db uid then (st1, [(uid, Out.alreadySearching)])
    else
      match (Database.get_next_from_queue st1.db).1 with
      | some p =>
          if p ≠ 0 ∧ p ≠ uid then
            let db1 := Database.remove_from_queue st1.db p
            let db2 := Database.create_chat db1 uid p
            ({ st1 with db := db2 }, [(uid, Out.matchedMessage), (p, Out.matchedMessage)])
          else
            ({ st1 with db := Database.add_to_queue st1.db uid now },
              [(uid, Out.searchingMessage)])
      | none =>
          ({ st1 with db := Database.add_to_queue st1.db uid now },
            [(uid, Out.searchingMessage)])

/-- `bot.end_chat`: not in chat → cancel the search if queued, else reply
`NOT_IN_CHAT`; in chat → `Database.end_chat`, reply `YOU_DISCONNECTED` and
notify the partner (`if partner_id` is again Python truthiness). -/
def endChatHandler (st : BotState) (uid : Nat) : BotState × List (Nat × Out) :=
  if !Database.is_in_chat st.db uid then
    if Database.is_in_queue st.db uid then
      ({ st with db := Database.remove_from_queue st.db uid }, [(uid, Out.searchCancelled)])
    else (st, [(uid, Out.notInChat)])
  else
    let r := Database.end_chat st.db uid
    let notifyPartner :=
      match r.1 with
      | some p => if p = 0 then [] else [(p, Out.partnerDisconnected)]
      | none => []
    ({ st with db := r.2 }, (uid, Out.youDisconnected) :: notifyPartner)

/-- `bot.report`: not in chat → `REPORT_NO_CHAT`; no arguments →
`REPORT_INSTRUCTION`; otherwise `reason = ' '.join(args)`, and `if
partner_id:` (truthiness — `None` and `0` do nothing, silently) guards the
`create_report` call. -/
def reportHandler (st : BotState) (uid : Nat) (args : List String) :
    BotState × List (Nat × Out) :=
  if !Database.is_in_chat st.db uid then (st, [(uid, Out.reportNoChat)])
  else if args.isEmpty then (st, [(uid, Out.reportInstruction)])
  else
    let reason := String.intercalate " " args
    match Database.get_current_chat st.db uid with
    | some p =>
        if p = 0 then (st, [])
        else
          ({ st with db := Database.create_report st.db uid p reason },
            [(uid, Out.reportSubmitted)])
    | none => (st, [])

/-- `admin.admin_block`: admin gate, usage check, existence check, then
`block_user`, `Database.end_chat` (whose returned partner id is discarded
— no message is sent to the partner), `remove_from_queue`, and a
confirmation to the admin.  The `int(...)` parsing of `context.args[0]`
and its `ValueError` reply are outside the model: `args` holds the parsed
ids. -/
def adminBlockHandler (adminIds : List Nat) (st : BotState) (caller : Nat)
    (args : List Nat) : BotState × List (Nat × Out) :=
  if !adminIds.contains caller then (st, [(caller, Out.notAdmin)])
  else
    match args with
    | [] => (st, [(caller, Out.adminUsage)])
    | uid :: _ =>
        if !Database.user_exists st.db uid then (st, [(caller, Out.adminUserNotFound)])
        else
          let db1 := Database.block_user st.db uid
          let r := Database.end_chat db1 uid
          let db3 := Database.remove_from_queue r.2 uid
          ({ st with db := db3 }, [(caller, Out.adminUserBlocked)])

/-- One inbound action, as routed by the command handlers. -/
inductive Step where
  | start (uid : Nat)
  | search (uid : Nat) (now : Int)
  | endChat (uid : Nat)
  | report (uid : Nat) (args : List String)
  | adminBlock (adminIds : List Nat) (caller : Nat) (args : List Nat)

/-- Apply one inbound action to the state. -/
def applyStep (s : Step) (st : BotState) : BotState :=
  match s with
  | Step.start uid => (startHandler st uid).1
  | Step.search uid now => (search st uid now).1
  | Step.endChat uid => (endChatHandler st uid).1
  | Step.report uid args => (reportHandler st uid args).1
  | Step.adminBlock adminIds caller args => (adminBlockHandler adminIds st caller args).1

/-- The process starts with an empty database and a fresh
`SpamProtection` instance. -/
def initState : BotState :=
  { db := { users := [], active_chats := [], reports := [], waiting_queue := [] },
    spam := SpamProtection.empty }

/-- States reachable from the initial state by inbound actions. -/
inductive Reachable : BotState → Prop where
  | init : Reachable initState
  | step (s : Step) {st : BotState} (h : Reachable st) : Reachable (applyStep s st)

/-! ### Invariants and concrete scenario states -/

/-- The current-partner relation is symmetric: whenever A's
`current_chat_with` is B, B's `current_chat_with` is A. -/
def Symm (db : DB) : Prop :=
  ∀ a b : Nat, Database.get_current_chat db a = some b →
    Database.get_current_chat db b = some a

/-- Every queued identity has a user document and no current partner. -/
def QueueInv (db : DB) : Prop :=
  ∀ e ∈ db.waiting_queue, Database.user_exists db e.user_id = true ∧
    Database.get_current_chat db e.user_id = none

/-- The combined state invariant for the pairing core. -/
def Inv (db : DB) : Prop := Symm db ∧ QueueInv db

/-- A one-entry queue (identity 7 enqueued at time 0), used to exhibit the
behaviour of `get_next_from_queue`. -/
def dbQueue7 : DB :=
  { users := [], active_chats := [], reports := [], waiting_queue := [⟨7, 0⟩] }

/-- C1 scenario start: identities 1, 2, 3 registered and idle, no queue,
no active chats. -/
def c1_db0 : DB :=
  { users := [(1, newUserDoc), (2, newUserDoc), (3, newUserDoc)],
    active_chats := [], reports := [], waiting_queue := [] }

/-- C1 scenario: combined state before any search. -/
def c1_st0 : BotState := { db := c1_db0, spam := SpamProtection.empty }

/-- C1 scenario: after identity 1 searches at time 0. -/
def c1_st1 : BotState := (search c1_st0 1 0).1

/-- C1 scenario: after identity 2 searches at time 10. -/
def c1_st2 : BotState := (search c1_st1 2 10).1

/-- C1 scenario: after identity 3 searches at time 20. -/
def c1_st3 : BotState := (search c1_st2 3 20).1

/-- A reachable state in which identity 6 ran `/start`, identity 5
searched without ever running `/start`, and identity 6 then searched. -/
def c2_trace : BotState :=
  applyStep (Step.search 6 1) (applyStep (Step.search 5 0) (applyStep (Step.start 6) initState))

/-- A state with identities 10 and 11 registered and paired with each
other (one active chat), and 99 configured as an admin. -/
def c8_st0 : BotState :=
  { db := { users := [(10, { newUserDoc with current_chat_with := some 11, total_chats := 1 }), (11, { newUserDoc with current_chat_with := some 10, total_chats := 1 })],
            active_chats := [⟨10, 11⟩], reports := [], waiting_queue := [] },
    spam := SpamProtection.empty }

/-! ### Helper lemmas on the embedded data layer -/

/-- Unfolding equation for `assocFind` on a cons cell. -/
theorem assocFind_cons {β : Type} (k x : Nat) (v : β) (rest : List (Nat × β)) :
    assocFind ((k, v) :: rest) x = if k = x then some v else assocFind rest x := rfl

/-- Unfolding equation for `updateAssoc` on a cons cell. -/
theorem updateAssoc_cons (k uid : Nat) (v : UserDoc) (rest : List (Nat × UserDoc))
    (f : UserDoc → UserDoc) :
    Database.updateAssoc ((k, v) :: rest) uid f =
      (if k = uid then (k, f v) else (k, v)) :: Database.updateAssoc rest uid f := rfl

/-- `assocFind` after `updateAssoc`: the updated key reads back through
`f`, every other key is untouched. -/
theorem assocFind_updateAssoc (uid x : Nat) (f : UserDoc → UserDoc) :
    ∀ l : List (Nat × UserDoc),
    assocFind (Database.updateAssoc l uid f) x =
      if x = uid then (assocFind l x).map f else assocFind l x := by
  intro l
  induction l with
  | nil => by_cases h : x = uid <;> simp [Database.updateAssoc, assocFind, h]
  | cons kv rest ih =>
      obtain ⟨k, v⟩ := kv
      rw [updateAssoc_cons]
      by_cases hk : k = uid
      · rw [if_pos hk, assocFind_cons]
        by_cases hx : k = x
        · have hxu : x = uid := hx ▸ hk
          rw [if_pos hx, if_pos hxu, assocFind_cons, if_pos hx]
          rfl
        · rw [if_neg hx, ih, assocFind_cons, if_neg hx]
      · rw [if_neg hk, assocFind_cons]
        by_cases hx : k = x
        · have hxu : x ≠ uid := fun h => hk (hx.trans h)
          rw [if_pos hx, if_neg hxu, assocFind_cons, if_pos hx]
        · rw [if_neg hx, ih, assocFind_cons, if_neg hx]

/-- Reading the updated document. -/
theorem get_user_update_eq (db : DB) (uid : Nat) (f : UserDoc → UserDoc) :
    Database.get_user (Database.update_user db uid f) uid =
      (Database.get_user db uid).map f := by
  simp [Database.get_user, Database.update_user, assocFind_updateAssoc]

/-- Reading any other document. -/
theorem get_user_update_ne (db : DB) (uid x : Nat) (f : UserDoc → UserDoc)
    (h : x ≠ uid) :
    Database.get_user (Database.update_user db uid f) x = Database.get_user db x := by
  simp [Database.get_user, Database.update_user, assocFind_updateAssoc, h]

/-- `update_user` keeps the set of existing documents. -/
theorem user_exists_update (db : DB) (uid x : Nat) (f : UserDoc → UserDoc) :
    Database.user_exists (Database.update_user db uid f) x = Database.user_exists db x := by
  by_cases h : x = uid
  · subst h
    simp only [Database.user_exists, get_user_update_eq]
    cases Database.get_user db x <;> rfl
  · simp only [Database.user_exists, get_user_update_ne db uid x f h]

/-- An update whose function keeps `current_chat_with` keeps
`get_current_chat` at every identity. -/
theorem get_current_chat_update_keep (db : DB) (uid : Nat) (f : UserDoc → UserDoc)
    (hf : ∀ u, (f u).current_chat_with = u.current_chat_with) (x : Nat) :
    Database.get_current_chat (Database.update_user db uid f) x =
      Database.get_current_chat db x := by
  by_cases h : x = uid
  · subst h
    simp only [Database.get_current_chat, get_user_update_eq]
    cases Database.get_user db x with
    | none => rfl
    | some u => simp [hf u]
  · simp only [Database.get_current_chat, get_user_update_ne db uid x f h]

/-- Clearing a user's partner makes their `get_current_chat` `none`. -/
theorem get_current_chat_clear (db : DB) (x : Nat) :
    Database.get_current_chat
      (Database.update_user db x (fun u => { u with current_chat_with := none })) x
      = none := by
  simp only [Database.get_current_chat, get_user_update_eq]
  cases Database.get_user db x <;> rfl

/-- The fold behind `get_next_from_queue` returns its seed or a list
element. -/
theorem minByAdded_mem (es : List QueueEntry) : ∀ e : QueueEntry,
    Database.minByAdded e es = e ∨ Database.minByAdded e es ∈ es := by
  induction es with
  | nil => intro e; left; rfl
  | cons x xs ih =>
      intro e
      have hc : Database.minByAdded e (x :: xs) =
          Database.minByAdded (if x.added_at < e.added_at then x else e) xs := rfl
      by_cases h : x.added_at < e.added_at
      · rw [hc, if_pos h]
        rcases ih x with h1 | h1
        · right; rw [h1]; exact List.mem_cons_self x xs
        · right; exact List.mem_cons_of_mem x h1
      · rw [hc, if_neg h]
        rcases ih e with h1 | h1
        · left; exact h1
        · right; exact List.mem_cons_of_mem x h1

/-- The fold behind `get_next_from_queue` returns a minimal `added_at`. -/
theorem minByAdded_le (es : List QueueEntry) : ∀ e : QueueEntry,
    (Database.minByAdded e es).added_at ≤ e.added_at ∧
    ∀ x ∈ es, (Database.minByAdded e es).added_at ≤ x.added_at := by
  induction es with
  | nil =>
      intro e
      exact ⟨le_refl _, fun x hx => absurd hx (List.not_mem_nil x)⟩
  | cons x xs ih =>
      intro e
      have hc : Database.minByAdded e (x :: xs) =
          Database.minByAdded (if x.added_at < e.added_at then x else e) xs := rfl
      by_cases h : x.added_at < e.added_at
      · rw [hc, if_pos h]
        obtain ⟨h1, h2⟩ := ih x
        refine ⟨le_trans h1 (le_of_lt h), ?_⟩
        intro y hy
        rcases List.mem_cons.mp hy with hy | hy
        · subst hy; exact h1
        · exact h2 y hy
      · rw [hc, if_neg h]
        obtain ⟨h1, h2⟩ := ih e
        refine ⟨h1, ?_⟩
        intro y hy
        rcases List.mem_cons.mp hy with hy | hy
        · subst hy; exact le_trans h1 (not_lt.mp h)
        · exact h2 y hy

/-! ### Claims about the rate limiter (spam_protection.py) -/

/-- C4: `check_message_rate` first evicts timestamps outside the trailing
60-second window, then rejects without recording the new timestamp when at
least `MAX_MESSAGES_PER_MINUTE` (20) remain, and otherwise records `now`
and accepts; in particular, from a fresh history, 20 messages inside one
window all succeed, a 21st inside the same 60 seconds fails, and a message
sent once 60 seconds have elapsed since the recorded ones succeeds
again. -/
theorem c4_message_rate (sp : SpamProtection) (u : Nat) (now : Int) :
    (MAX_MESSAGES_PER_MINUTE ≤ ((sp.getHistory u).filter (fun ts => now - 60 < ts)).length →
      check_message_rate sp u now =
        (false, { sp with message_history := assocSet sp.message_history u ((sp.getHistory u).filter (fun ts => now - 60 < ts)) })) ∧
    (((sp.getHistory u).filter (fun ts => now - 60 < ts)).length < MAX_MESSAGES_PER_MINUTE →
      check_message_rate sp u now =
        (true, { sp with message_history := assocSet sp.message_history u (((sp.getHistory u).filter (fun ts => now - 60 < ts)) ++ [now]) })) ∧
    (runMessages SpamProtection.empty 1 ((List.range 20).map (fun i => (i : Int)))).1 =
      List.replicate 20 true ∧
    (check_message_rate (runMessages SpamProtection.empty 1
      ((List.range 20).map (fun i => (i : Int)))).2 1 30).1 = false ∧
    (check_message_rate (check_message_rate (runMessages SpamProtection.empty 1
      ((List.range 20).map (fun i => (i : Int)))).2 1 30).2 1 80).1 = true := by
  refine ⟨?_, ?_, by decide, by decide, by decide⟩
  · intro h
    simp only [check_message_rate]
    rw [if_pos h]
  · intro h
    simp only [check_message_rate]
    rw [if_neg (by omega)]

/-- Witness for C4: a message on a fresh history is accepted. -/
theorem c4_message_rate_witness : (check_message_rate SpamProtection.empty 0 0).1 = true := by
  have h := (c4_message_rate SpamProtection.empty 0 0).2.1 (by decide)
  rw [h]

/-- C5: `check_command_cooldown` rejects exactly when `now` is strictly
before the stored last-command time plus `COMMAND_COOLDOWN_SECONDS` (3),
and otherwise stores `now` and accepts; in particular, of two commands 2
seconds apart the second is rejected, and a command issued once the
cooldown has elapsed is accepted. -/
theorem c5_command_cooldown (sp : SpamProtection) (u : Nat) (now : Int) :
    (∀ last, assocFind sp.command_history u = some last →
      (now < last + COMMAND_COOLDOWN_SECONDS →
        check_command_cooldown sp u now = (false, sp)) ∧
      (last + COMMAND_COOLDOWN_SECONDS ≤ now →
        check_command_cooldown sp u now =
          (true, { sp with command_history := assocSet sp.command_history u now }))) ∧
    (assocFind sp.command_history u = none →
      check_command_cooldown sp u now =
        (true, { sp with command_history := assocSet sp.command_history u now })) ∧
    (check_command_cooldown SpamProtection.empty 1 0).1 = true ∧
    (check_command_cooldown (check_command_cooldown SpamProtection.empty 1 0).2 1 2).1
      = false ∧
    (check_command_cooldown (check_command_cooldown
      (check_command_cooldown SpamProtection.empty 1 0).2 1 2).2 1 3).1 = true := by
  refine ⟨?_, ?_, by decide, by decide, by decide⟩
  · intro last hlast
    constructor
    · intro h
      simp only [check_command_cooldown, hlast]
      rw [if_pos h]
    · intro h
      simp only [check_command_cooldown, hlast]
      rw [if_neg (by omega)]
  · intro hnone
    simp only [check_command_cooldown, hnone]

/-- Witness for C5: with `0` stored for identity `1`, a command at time 1
is inside the cooldown and rejected. -/
theorem c5_command_cooldown_witness :
    check_command_cooldown ⟨[], [(1, 0)]⟩ 1 1 = (false, ⟨[], [(1, 0)]⟩) :=
  ((c5_command_cooldown ⟨[], [(1, 0)]⟩ 1 1).1 0 (by decide)).1 (by decide)

/-- C10: a rejected `check_command_cooldown` call leaves the state (hence
the stored last-command timestamp) unchanged; consequently any sequence of
attempts all falling inside the cooldown leaves the state unchanged, and a
command issued once the original cooldown has elapsed is accepted. -/
theorem c10_reject_keeps_timestamp (sp : SpamProtection) (u : Nat) :
    (∀ now, (check_command_cooldown sp u now).1 = false →
      (check_command_cooldown sp u now).2 = sp) ∧
    (∀ last, assocFind sp.command_history u = some last →
      ∀ ts : List Int, (∀ t ∈ ts, t < last + COMMAND_COOLDOWN_SECONDS) →
        runCommands sp u ts = sp ∧
        ∀ now, last + COMMAND_COOLDOWN_SECONDS ≤ now →
          (check_command_cooldown (runCommands sp u ts) u now).1 = true) := by
  have hrej : ∀ now last, assocFind sp.command_history u = some last →
      now < last + COMMAND_COOLDOWN_SECONDS →
      check_command_cooldown sp u now = (false, sp) := by
    intro now last hlast h
    simp only [check_command_cooldown, hlast]
    rw [if_pos h]
  have hacc : ∀ now last, assocFind sp.command_history u = some last →
      ¬(now < last + COMMAND_COOLDOWN_SECONDS) →
      check_command_cooldown sp u now =
        (true, { sp with command_history := assocSet sp.command_history u now }) := by
    intro now last hlast h
    simp only [check_command_cooldown, hlast]
    rw [if_neg h]
  have hnone : ∀ now, assocFind sp.command_history u = none →
      check_command_cooldown sp u now =
        (true, { sp with command_history := assocSet sp.command_history u now }) := by
    intro now hfind
    simp only [check_command_cooldown, hfind]
  constructor
  · intro now hfalse
    cases hfind : assocFind sp.command_history u with
    | none => rw [hnone now hfind] at hfalse; simp at hfalse
    | some last =>
        by_cases h : now < last + COMMAND_COOLDOWN_SECONDS
        · rw [hrej now last hfind h]
        · rw [hacc now last hfind h] at hfalse; simp at hfalse
  · intro last hlast ts
    induction ts with
    | nil =>
        intro _
        refine ⟨rfl, ?_⟩
        intro now hnow
        simp only [runCommands, check_command_cooldown, hlast]
        rw [if_neg (by omega)]
    | cons t ts ih =>
        intro hall
        have ht : t < last + COMMAND_COOLDOWN_SECONDS := hall t (List.mem_cons_self t ts)
        have hstep : check_command_cooldown sp u t = (false, sp) := hrej t last hlast ht
        have hrun : runCommands sp u (t :: ts) = runCommands sp u ts := by
          simp only [runCommands, hstep]
        rw [hrun]
        exact ih (fun x hx => hall x (List.mem_cons_of_mem t hx))

/-- Witness for C10: with `0` stored for identity `1`, rejected attempts at
times 1 and 2 leave the state unchanged and a command at time 3 is
accepted. -/
theorem c10_reject_keeps_timestamp_witness :
    runCommands ⟨[], [(1, 0)]⟩ 1 [1, 2] = ⟨[], [(1, 0)]⟩ ∧
    (check_command_cooldown (runCommands ⟨[], [(1, 0)]⟩ 1 [1, 2]) 1 3).1 = true := by
  have h := (c10_reject_keeps_timestamp ⟨[], [(1, 0)]⟩ 1).2 0 (by decide) [1, 2]
    (by intro t ht; fin_cases ht <;> decide)
  exact ⟨h.1, h.2 3 (by decide)⟩

/-- On a nonempty queue, `get_next_from_queue` returns the identity of an
entry whose `added_at` is minimal. -/
theorem get_next_min (db : DB) (hne : db.waiting_queue ≠ []) :
    ∃ e, e ∈ db.waiting_queue ∧
      (Database.get_next_from_queue db).1 = some e.user_id ∧
      ∀ x ∈ db.waiting_queue, e.added_at ≤ x.added_at := by
  cases h : db.waiting_queue with
  | nil => exact absurd h hne
  | cons e es =>
      refine ⟨Database.minByAdded e es, ?_, ?_, ?_⟩
      · rcases minByAdded_mem es e with h1 | h1
        · rw [h1]; exact List.mem_cons_self e es
        · exact List.mem_cons_of_mem e h1
      · simp only [Database.get_next_from_queue, h]
      · intro x hx
        rcases List.mem_cons.mp hx with hx | hx
        · rw [hx]
          exact (minByAdded_le es e).1
        · exact (minByAdded_le es e).2 x hx

/-! ### Claims about the waiting queue (database.py) -/

/-- C3 counterexample: on the queue `[{user_id := 7, added_at := 0}]`,
`get_next_from_queue` returns identity 7 but does not remove it — the
resulting state is the input state and identity 7 is still queued, so the
operation does not "remove and return" the earliest entry. -/
theorem c3_counterexample :
    (Database.get_next_from_queue dbQueue7).1 = some 7 ∧
    (Database.get_next_from_queue dbQueue7).2 = dbQueue7 ∧
    Database.is_in_queue (Database.get_next_from_queue dbQueue7).2 7 = true := by
  decide

/-- C3 (amended): `get_next_from_queue` is a pure read — on an empty queue
it returns `none`, on a nonempty queue it returns the `user_id` of an
entry with the earliest `added_at`; in both cases the state is unchanged.
The removal is performed by the caller (`search`), and removing the
returned identity does delete that earliest entry from the queue. -/
theorem c3_peek_returns_oldest (db : DB) :
    (db.waiting_queue = [] → Database.get_next_from_queue db = (none, db)) ∧
    (Database.get_next_from_queue db).2 = db ∧
    (db.waiting_queue ≠ [] →
      ∃ e, e ∈ db.waiting_queue ∧
        (Database.get_next_from_queue db).1 = some e.user_id ∧
        (∀ x ∈ db.waiting_queue, e.added_at ≤ x.added_at) ∧
        e ∉ (Database.remove_from_queue db e.user_id).waiting_queue) := by
  refine ⟨?_, ?_, ?_⟩
  · intro h
    simp only [Database.get_next_from_queue, h]
  · cases h : db.waiting_queue with
    | nil => simp only [Database.get_next_from_queue, h]
    | cons e es => simp only [Database.get_next_from_queue, h]
  · intro hne
    obtain ⟨e, he, hres, hmin⟩ := get_next_min db hne
    refine ⟨e, he, hres, hmin, ?_⟩
    intro hmem
    simp only [Database.remove_from_queue, List.mem_filter] at hmem
    simp at hmem

/-- Witness for C3 (amended): on the one-entry queue holding 7, the peek
returns 7, 7 is minimal, and the follow-up removal deletes the entry. -/
theorem c3_peek_returns_oldest_witness :
    dbQueue7.waiting_queue ≠ [] ∧
    ∃ e, e ∈ dbQueue7.waiting_queue ∧
      (Database.get_next_from_queue dbQueue7).1 = some e.user_id ∧
      (∀ x ∈ dbQueue7.waiting_queue, e.added_at ≤ x.added_at) ∧
      e ∉ (Database.remove_from_queue dbQueue7 e.user_id).waiting_queue :=
  ⟨by decide, (c3_peek_returns_oldest dbQueue7).2.2 (by decide)⟩

/-! ### Claim C1: the FIFO pairing scenario -/

/-- C1: with identities 1, 2, 3 registered and idle, an empty queue and no
active chats, successful searches in order 1, 2, 3 give: after the first
call 1 is enqueued with no session; after the second a chat {2,1} exists,
both point at each other and the queue is empty; after the third 3 is the
only queued identity; and on any nonempty queue the pairing step consumes
an identity whose enqueue time is earliest. -/
theorem c1_fifo_scenario :
    c1_st1.db.waiting_queue = [⟨1, 0⟩] ∧
    c1_st1.db.active_chats = [] ∧
    Database.get_current_chat c1_st1.db 1 = none ∧
    (search c1_st0 1 0).2 = [(1, Out.searchingMessage)] ∧
    c1_st2.db.active_chats = [⟨2, 1⟩] ∧
    Database.get_current_chat c1_st2.db 2 = some 1 ∧
    Database.get_current_chat c1_st2.db 1 = some 2 ∧
    c1_st2.db.waiting_queue = [] ∧
    (search c1_st1 2 10).2 = [(2, Out.matchedMessage), (1, Out.matchedMessage)] ∧
    c1_st3.db.waiting_queue = [⟨3, 20⟩] ∧
    Database.get_current_chat c1_st3.db 3 = none ∧
    (∀ db : DB, db.waiting_queue ≠ [] →
      ∃ e, e ∈ db.waiting_queue ∧
        (Database.get_next_from_queue db).1 = some e.user_id ∧
        ∀ x ∈ db.waiting_queue, e.added_at ≤ x.added_at) := by
  refine ⟨by decide, by decide, by decide, by decide, by decide, by decide, by decide,
    by decide, by decide, by decide, by decide, fun db hne => get_next_min db hne⟩

/-- Witness for C1: the earliest-entry property instantiated on the
one-entry queue holding identity 7. -/
theorem c1_fifo_scenario_witness :
    ∃ e, e ∈ dbQueue7.waiting_queue ∧
      (Database.get_next_from_queue dbQueue7).1 = some e.user_id ∧
      ∀ x ∈ dbQueue7.waiting_queue, e.added_at ≤ x.added_at :=
  c1_fifo_scenario.2.2.2.2.2.2.2.2.2.2.2 dbQueue7 (by decide)

/-! ### Helper lemmas on end_chat and the handlers -/

/-- `end_chat` on a user with no partner is a no-op returning `None`. -/
theorem end_chat_none (db : DB) (uid : Nat)
    (h : Database.get_current_chat db uid = none) :
    Database.end_chat db uid = (none, db) := by
  simp only [Database.end_chat, h]

/-- `end_chat` on a paired user returns the partner, clears both
`current_chat_with` fields and does not touch the queue or the reports. -/
theorem end_chat_clears (db : DB) (uid p : Nat)
    (h : Database.get_current_chat db uid = some p) (hp : p ≠ 0) :
    (Database.end_chat db uid).1 = some p ∧
    Database.get_current_chat (Database.end_chat db uid).2 uid = none ∧
    Database.get_current_chat (Database.end_chat db uid).2 p = none ∧
    (Database.end_chat db uid).2.waiting_queue = db.waiting_queue ∧
    (Database.end_chat db uid).2.reports = db.reports := by
  simp only [Database.end_chat, h]
  rw [if_neg hp]
  refine ⟨rfl, ?_, ?_, rfl, rfl⟩
  · show (assocFind (Database.updateAssoc (Database.updateAssoc db.users uid (fun u => { u with current_chat_with := none })) p (fun u => { u with current_chat_with := none })) uid).bind (fun u => u.current_chat_with) = none
    rw [assocFind_updateAssoc, assocFind_updateAssoc, if_pos rfl]
    by_cases hup : uid = p
    · rw [if_pos hup]
      cases assocFind db.users uid <;> rfl
    · rw [if_neg hup]
      cases assocFind db.users uid <;> rfl
  · show (assocFind (Database.updateAssoc (Database.updateAssoc db.users uid (fun u => { u with current_chat_with := none })) p (fun u => { u with current_chat_with := none })) p).bind (fun u => u.current_chat_with) = none
    rw [assocFind_updateAssoc, if_pos rfl]
    cases assocFind (Database.updateAssoc db.users uid (fun u => { u with current_chat_with := none })) p <;> rfl

/-- Reading the queue membership only depends on the queue. -/
theorem is_in_queue_congr (db db' : DB) (x : Nat)
    (h : db.waiting_queue = db'.waiting_queue) :
    Database.is_in_queue db x = Database.is_in_queue db' x := by
  simp only [Database.is_in_queue, h]

/-- Filtering a user out of the queue leaves no entry with their id. -/
theorem any_filter_ne (uid : Nat) : ∀ q : List QueueEntry,
    ((q.filter (fun e => e.user_id ≠ uid)).any (fun e => e.user_id = uid)) = false := by
  intro q
  induction q with
  | nil => rfl
  | cons e es ih =>
      by_cases h : e.user_id = uid
      · simp [List.filter_cons, h, ih]
      · simp [List.filter_cons, h, ih]

/-- A user just removed from the queue is not in the queue. -/
theorem is_in_queue_remove_self (db : DB) (uid : Nat) :
    Database.is_in_queue (Database.remove_from_queue db uid) uid = false := by
  simp only [Database.is_in_queue, Database.remove_from_queue]
  exact any_filter_ne uid db.waiting_queue

/-- The end-chat handler on an identity that is neither paired nor queued:
reply `NOT_IN_CHAT`, no state change. -/
theorem endChatHandler_idle (st : BotState) (uid : Nat)
    (h1 : Database.is_in_chat st.db uid = false)
    (h2 : Database.is_in_queue st.db uid = false) :
    endChatHandler st uid = (st, [(uid, Out.notInChat)]) := by
  simp [endChatHandler, h1, h2]

/-- The end-chat handler on a queued identity cancels the search. -/
theorem endChatHandler_queued (st : BotState) (uid : Nat)
    (h1 : Database.is_in_chat st.db uid = false)
    (h2 : Database.is_in_queue st.db uid = true) :
    endChatHandler st uid =
      ({ st with db := Database.remove_from_queue st.db uid },
        [(uid, Out.searchCancelled)]) := by
  simp [endChatHandler, h1, h2]

/-- The end-chat handler on a paired identity ends the chat and notifies
both sides. -/
theorem endChatHandler_paired (st : BotState) (uid p : Nat)
    (h : Database.get_current_chat st.db uid = some p) (hp : p ≠ 0) :
    endChatHandler st uid =
      ({ st with db := (Database.end_chat st.db uid).2 },
        [(uid, Out.youDisconnected), (p, Out.partnerDisconnected)]) := by
  have hin : Database.is_in_chat st.db uid = true := by
    simp [Database.is_in_chat, h]
  have h1 : (Database.end_chat st.db uid).1 = some p :=
    (end_chat_clears st.db uid p h hp).1
  simp [endChatHandler, hin, h1, hp]

/-! ### Claim C6: end-chat idempotence -/

/-- C6: on an identity that is neither paired nor queued the end-chat
handler replies `NOT_IN_CHAT` and leaves the state untouched; and after a
first end-chat call from a paired-not-queued (or queued) state the
identity is neither paired nor queued, so a second call replies
`NOT_IN_CHAT` and changes nothing. -/
theorem c6_end_chat_idempotent (st : BotState) (uid : Nat) :
    (Database.is_in_chat st.db uid = false → Database.is_in_queue st.db uid = false →
      endChatHandler st uid = (st, [(uid, Out.notInChat)])) ∧
    (∀ p, Database.get_current_chat st.db uid = some p → p ≠ 0 →
      Database.is_in_queue st.db uid = false →
      Database.is_in_chat (endChatHandler st uid).1.db uid = false ∧
      Database.is_in_queue (endChatHandler st uid).1.db uid = false ∧
      endChatHandler (endChatHandler st uid).1 uid =
        ((endChatHandler st uid).1, [(uid, Out.notInChat)])) ∧
    (Database.is_in_chat st.db uid = false → Database.is_in_queue st.db uid = true →
      Database.is_in_chat (endChatHandler st uid).1.db uid = false ∧
      Database.is_in_queue (endChatHandler st uid).1.db uid = false ∧
      endChatHandler (endChatHandler st uid).1 uid =
        ((endChatHandler st uid).1, [(uid, Out.notInChat)])) := by
  refine ⟨fun h1 h2 => endChatHandler_idle st uid h1 h2, ?_, ?_⟩
  · intro p h hp hq
    have hrun := endChatHandler_paired st uid p h hp
    have hclear := end_chat_clears st.db uid p h hp
    have hchat : Database.is_in_chat (endChatHandler st uid).1.db uid = false := by
      rw [hrun]
      simp only [Database.is_in_chat, hclear.2.1, Option.isSome_none]
    have hqueue : Database.is_in_queue (endChatHandler st uid).1.db uid = false := by
      rw [hrun]
      rw [is_in_queue_congr _ st.db uid hclear.2.2.2.1]
      exact hq
    exact ⟨hchat, hqueue, endChatHandler_idle _ uid hchat hqueue⟩
  · intro h1 h2
    have hrun := endChatHandler_queued st uid h1 h2
    have hchat : Database.is_in_chat (endChatHandler st uid).1.db uid = false := by
      rw [hrun]
      exact h1
    have hqueue : Database.is_in_queue (endChatHandler st uid).1.db uid = false := by
      rw [hrun]
      exact is_in_queue_remove_self st.db uid
    exact ⟨hchat, hqueue, endChatHandler_idle _ uid hchat hqueue⟩

/-- Witness for C6: identity 10 paired with 11; the state after its first
end-chat call yields `NOT_IN_CHAT` and no change on the second call. -/
theorem c6_end_chat_idempotent_witness :
    Database.is_in_chat (endChatHandler c8_st0 10).1.db 10 = false ∧
    Database.is_in_queue (endChatHandler c8_st0 10).1.db 10 = false ∧
    endChatHandler (endChatHandler c8_st0 10).1 10 =
      ((endChatHandler c8_st0 10).1, [(10, Out.notInChat)]) :=
  (c6_end_chat_idempotent c8_st0 10).2.1 11 (by decide) (by decide) (by decide)

/-! ### More read lemmas on the data layer -/

/-- `assocFind` after `assocSet`: the set key reads back the new value,
every other key is untouched. -/
theorem assocFind_assocSet {β : Type} (k x : Nat) (v : β) :
    ∀ l : List (Nat × β),
    assocFind (assocSet l k v) x = if x = k then some v else assocFind l x := by
  intro l
  induction l with
  | nil =>
      by_cases h : x = k
      · rw [h]; simp [assocSet, assocFind]
      · simp [assocSet, assocFind, h]
        intro h'
        exact absurd h'.symm h
  | cons kv rest ih =>
      obtain ⟨k', v'⟩ := kv
      show assocFind (if k' = k then (k, v) :: rest else (k', v') :: assocSet rest k v) x = _
      by_cases hk : k' = k
      · rw [if_pos hk, assocFind_cons]
        by_cases hx : k = x
        · rw [if_pos hx, if_pos hx.symm, ]
        · rw [if_neg hx, if_neg (fun h => hx h.symm), assocFind_cons, hk, if_neg hx]
      · rw [if_neg hk, assocFind_cons]
        by_cases hx : k' = x
        · have hxk : ¬(x = k) := fun h => hk (hx.trans h)
          rw [if_pos hx, if_neg hxk, assocFind_cons, if_pos hx]
        · rw [if_neg hx, ih, assocFind_cons, if_neg hx]

/-- Reading the freshly created user. -/
theorem get_user_create_eq (db : DB) (uid : Nat) :
    Database.get_user (Database.create_user db uid) uid = some newUserDoc := by
  simp [Database.get_user, Database.create_user, assocFind_assocSet]

/-- Reading any other document after `create_user`. -/
theorem get_user_create_ne (db : DB) (uid x : Nat) (h : x ≠ uid) :
    Database.get_user (Database.create_user db uid) x = Database.get_user db x := by
  simp only [Database.get_user, Database.create_user, assocFind_assocSet, if_neg h]

/-- A missing user has no current chat. -/
theorem get_current_chat_not_exists (db : DB) (x : Nat)
    (h : Database.user_exists db x = false) :
    Database.get_current_chat db x = none := by
  simp only [Database.user_exists] at h
  simp only [Database.get_current_chat]
  cases hu : Database.get_user db x with
  | none => rfl
  | some u => rw [hu] at h; simp at h

/-- `is_in_chat … = false` means `get_current_chat` is `none`. -/
theorem is_in_chat_false (db : DB) (x : Nat)
    (h : Database.is_in_chat db x = false) :
    Database.get_current_chat db x = none := by
  simp only [Database.is_in_chat] at h
  cases hu : Database.get_current_chat db x with
  | none => rfl
  | some p => rw [hu] at h; simp at h

/-- When `get_next_from_queue` returns an identity, some queue entry
carries it. -/
theorem get_next_mem (db : DB) (p : Nat)
    (h : (Database.get_next_from_queue db).1 = some p) :
    ∃ e ∈ db.waiting_queue, e.user_id = p := by
  cases hq : db.waiting_queue with
  | nil =>
      simp only [Database.get_next_from_queue, hq] at h
      exact Option.noConfusion h
  | cons e es =>
      simp only [Database.get_next_from_queue, hq] at h
      refine ⟨Database.minByAdded e es, ?_, Option.some.inj h⟩
      rcases minByAdded_mem es e with h1 | h1
      · rw [h1]; exact List.mem_cons_self e es
      · exact List.mem_cons_of_mem e h1

/-- `is_in_queue … = false` means no queue entry carries the identity. -/
theorem is_in_queue_false_mem (db : DB) (uid : Nat)
    (h : Database.is_in_queue db uid = false) :
    ∀ e ∈ db.waiting_queue, e.user_id ≠ uid := by
  intro e he heq
  have hany : db.waiting_queue.any (fun e => e.user_id = uid) = true := by
    rw [List.any_eq_true]
    exact ⟨e, he, by simp [heq]⟩
  simp only [Database.is_in_queue] at h
  rw [h] at hany
  exact Bool.noConfusion hany

/-- Explicit state form of `Database.end_chat` on a paired user. -/
theorem end_chat_db_eq (db : DB) (uid p : Nat)
    (h : Database.get_current_chat db uid = some p) (hp : p ≠ 0) :
    (Database.end_chat db uid).2 =
      { Database.update_user (Database.update_user db uid (fun u => { u with current_chat_with := none })) p (fun u => { u with current_chat_with := none }) with
        active_chats := (db.active_chats.filter (fun c => c.user1_id ≠ uid)).filter (fun c => c.user2_id ≠ uid) } := by
  simp only [Database.end_chat, h]
  rw [if_neg hp]
  rfl

/-- `end_chat` on a user whose stored partner id is `0` is a no-op (the
Python guard `if not partner_id` treats `0` as missing). -/
theorem end_chat_zero (db : DB) (uid : Nat)
    (h : Database.get_current_chat db uid = some 0) :
    Database.end_chat db uid = (none, db) := by
  simp [Database.end_chat, h]

/-- When `end_chat` returns a partner, that partner was the stored
current chat and is nonzero. -/
theorem end_chat_some_inv (db : DB) (uid p : Nat)
    (h : (Database.end_chat db uid).1 = some p) :
    Database.get_current_chat db uid = some p ∧ p ≠ 0 := by
  cases hc : Database.get_current_chat db uid with
  | none =>
      rw [end_chat_none db uid hc] at h
      exact absurd h (by simp)
  | some q =>
      by_cases hq : q = 0
      · rw [hq] at hc
        rw [end_chat_zero db uid hc] at h
        exact absurd h (by simp)
      · have h1 : (Database.end_chat db uid).1 = some q := (end_chat_clears db uid q hc hq).1
        rw [h1] at h
        have hqp : q = p := Option.some.inj h
        subst hqp
        exact ⟨rfl, hq⟩

/-- An update whose function keeps `blocked` keeps `is_blocked`. -/
theorem is_blocked_update_keep (db : DB) (y : Nat) (f : UserDoc → UserDoc)
    (hf : ∀ u, (f u).blocked = u.blocked) (x : Nat) :
    Database.is_blocked (Database.update_user db y f) x = Database.is_blocked db x := by
  by_cases h : x = y
  · subst h
    simp only [Database.is_blocked, get_user_update_eq]
    cases Database.get_user db x with
    | none => rfl
    | some u => simp [hf u]
  · simp only [Database.is_blocked, get_user_update_ne db y x f h]

/-- `block_user` on an existing user marks them blocked. -/
theorem is_blocked_block_user (db : DB) (uid : Nat)
    (hex : Database.user_exists db uid = true) :
    Database.is_blocked (Database.block_user db uid) uid = true := by
  simp only [Database.block_user, Database.is_blocked, get_user_update_eq]
  cases hu : Database.get_user db uid with
  | none =>
      simp only [Database.user_exists, hu] at hex
      exact absurd hex (by simp)
  | some doc => rfl

/-- `update_user` keeps `user_exists` through `create_chat`. -/
theorem user_exists_create_chat (db : DB) (u1 u2 x : Nat) :
    Database.user_exists (Database.create_chat db u1 u2) x =
      Database.user_exists db x := by
  simp only [Database.create_chat]
  rw [user_exists_update, user_exists_update]
  rfl

/-- Reading a bystander's partner after `create_chat`. -/
theorem get_current_create_chat_other (db : DB) (u1 u2 x : Nat)
    (h1 : x ≠ u1) (h2 : x ≠ u2) :
    Database.get_current_chat (Database.create_chat db u1 u2) x =
      Database.get_current_chat db x := by
  simp only [Database.create_chat, Database.get_current_chat]
  rw [get_user_update_ne _ u2 x _ h2, get_user_update_ne _ u1 x _ h1]
  rfl

/-- A registered user has some document. -/
theorem user_exists_some (db : DB) (x : Nat)
    (hex : Database.user_exists db x = true) :
    ∃ d, Database.get_user db x = some d := by
  simp only [Database.user_exists] at hex
  cases hu : Database.get_user db x with
  | none => rw [hu] at hex; exact absurd hex (by simp)
  | some d => exact ⟨d, rfl⟩

/-- After `create_chat u1 u2`, the registered `u2` points at `u1`. -/
theorem get_current_create_chat_u2 (db : DB) (u1 u2 : Nat)
    (hex : Database.user_exists db u2 = true) :
    Database.get_current_chat (Database.create_chat db u1 u2) u2 = some u1 := by
  obtain ⟨d, hd⟩ := user_exists_some db u2 hex
  simp only [Database.create_chat, Database.get_current_chat]
  rw [get_user_update_eq]
  by_cases h12 : u2 = u1
  · subst h12
    rw [get_user_update_eq]
    have hd' : Database.get_user { db with active_chats := db.active_chats ++ [⟨u2, u2⟩] } u2 = some d := hd
    rw [hd']
    rfl
  · rw [get_user_update_ne _ u1 u2 _ h12]
    have hd' : Database.get_user { db with active_chats := db.active_chats ++ [⟨u1, u2⟩] } u2 = some d := hd
    rw [hd']
    rfl

/-- After `create_chat u1 u2` with distinct users, the registered `u1`
points at `u2`. -/
theorem get_current_create_chat_u1 (db : DB) (u1 u2 : Nat) (h12 : u1 ≠ u2)
    (hex : Database.user_exists db u1 = true) :
    Database.get_current_chat (Database.create_chat db u1 u2) u1 = some u2 := by
  obtain ⟨d, hd⟩ := user_exists_some db u1 hex
  simp only [Database.create_chat, Database.get_current_chat]
  rw [get_user_update_ne _ u2 u1 _ h12, get_user_update_eq]
  have hd' : Database.get_user { db with active_chats := db.active_chats ++ [⟨u1, u2⟩] } u1 = some d := hd
  rw [hd']
  rfl

/-! ### Invariant preservation -/

/-- A boolean hypothesis that is not `true` is `false`. -/
theorem bool_not_true {b : Bool} (h : ¬(b = true)) : b = false := by
  cases b
  · rfl
  · exact absurd rfl h

/-- `get_current_chat` of a non-updated identity. -/
theorem get_current_chat_update_ne (db : DB) (y x : Nat) (f : UserDoc → UserDoc)
    (h : x ≠ y) :
    Database.get_current_chat (Database.update_user db y f) x =
      Database.get_current_chat db x := by
  simp only [Database.get_current_chat, get_user_update_ne db y x f h]

/-- Replacing `active_chats` does not change `get_current_chat`. -/
theorem get_current_chat_set_chats (db : DB) (c : List ChatDoc) (x : Nat) :
    Database.get_current_chat { db with active_chats := c } x =
      Database.get_current_chat db x := rfl

/-- Replacing `active_chats` does not change `user_exists`. -/
theorem user_exists_set_chats (db : DB) (c : List ChatDoc) (x : Nat) :
    Database.user_exists { db with active_chats := c } x =
      Database.user_exists db x := rfl

/-- Removing from the queue preserves the invariant. -/
theorem inv_remove (db : DB) (x : Nat) (hInv : Inv db) :
    Inv (Database.remove_from_queue db x) := by
  obtain ⟨hs, hq⟩ := hInv
  constructor
  · intro a b hab
    exact hs a b hab
  · intro e he
    simp only [Database.remove_from_queue, List.mem_filter] at he
    exact hq e he.1

/-- Enqueueing a registered idle user preserves the invariant. -/
theorem inv_enqueue (db : DB) (uid : Nat) (now : Int) (hInv : Inv db)
    (hreg : Database.user_exists db uid = true)
    (hcur : Database.get_current_chat db uid = none) :
    Inv (Database.add_to_queue db uid now) := by
  obtain ⟨hs, hq⟩ := hInv
  constructor
  · intro a b hab
    exact hs a b hab
  · intro e he
    simp only [Database.add_to_queue, List.mem_append, List.mem_filter,
      List.mem_singleton] at he
    rcases he with ⟨hmem, _⟩ | he
    · exact hq e hmem
    · subst he
      exact ⟨hreg, hcur⟩

/-- Pairing a registered idle searcher with the dequeued identity
preserves the invariant. -/
theorem inv_pair (db : DB) (uid p : Nat) (hInv : Inv db)
    (hreg : Database.user_exists db uid = true)
    (hucur : Database.get_current_chat db uid = none)
    (hqueue : Database.is_in_queue db uid = false)
    (hnext : (Database.get_next_from_queue db).1 = some p)
    (hpu : p ≠ uid) :
    Inv (Database.create_chat (Database.remove_from_queue db p) uid p) := by
  obtain ⟨hs, hq⟩ := hInv
  obtain ⟨e0, he0, he0p⟩ := get_next_mem db p hnext
  have hpfacts := hq e0 he0
  rw [he0p] at hpfacts
  obtain ⟨hpex, hpcur⟩ := hpfacts
  have hu12 : uid ≠ p := fun h => hpu h.symm
  have hcu : Database.get_current_chat
      (Database.create_chat (Database.remove_from_queue db p) uid p) uid = some p :=
    get_current_create_chat_u1 (Database.remove_from_queue db p) uid p hu12 hreg
  have hcp : Database.get_current_chat
      (Database.create_chat (Database.remove_from_queue db p) uid p) p = some uid :=
    get_current_create_chat_u2 (Database.remove_from_queue db p) uid p hpex
  have hother : ∀ x, x ≠ uid → x ≠ p →
      Database.get_current_chat
        (Database.create_chat (Database.remove_from_queue db p) uid p) x =
      Database.get_current_chat db x := fun x hx1 hx2 =>
    get_current_create_chat_other (Database.remove_from_queue db p) uid p x hx1 hx2
  constructor
  · intro a b hab
    by_cases ha1 : a = uid
    · subst ha1
      rw [hcu] at hab
      obtain rfl := Option.some.inj hab
      exact hcp
    · by_cases ha2 : a = p
      · subst ha2
        rw [hcp] at hab
        obtain rfl := Option.some.inj hab
        exact hcu
      · rw [hother a ha1 ha2] at hab
        have hba := hs a b hab
        have hb1 : b ≠ uid := by
          intro hb
          subst hb
          rw [hucur] at hba
          exact Option.noConfusion hba
        have hb2 : b ≠ p := by
          intro hb
          subst hb
          rw [hpcur] at hba
          exact Option.noConfusion hba
        rw [hother b hb1 hb2]
        exact hba
  · intro e he
    have he' : e ∈ db.waiting_queue.filter (fun e => e.user_id ≠ p) := he
    rw [List.mem_filter] at he'
    obtain ⟨hmem, hnep'⟩ := he'
    have hnep : e.user_id ≠ p := by simpa using hnep'
    have hneu : e.user_id ≠ uid := is_in_queue_false_mem db uid hqueue e hmem
    constructor
    · rw [user_exists_create_chat]
      exact (hq e hmem).1
    · rw [hother e.user_id hneu hnep]
      exact (hq e hmem).2

/-- Creating a missing user preserves the invariant. -/
theorem inv_create_user (db : DB) (uid : Nat) (hInv : Inv db)
    (hnex : Database.user_exists db uid = false) :
    Inv (Database.create_user db uid) := by
  obtain ⟨hs, hq⟩ := hInv
  have hcur0 : Database.get_current_chat db uid = none :=
    get_current_chat_not_exists db uid hnex
  have hcreate : ∀ x, Database.get_current_chat (Database.create_user db uid) x =
      if x = uid then none else Database.get_current_chat db x := by
    intro x
    by_cases hx : x = uid
    · subst hx
      rw [if_pos rfl]
      simp only [Database.get_current_chat, get_user_create_eq]
      rfl
    · rw [if_neg hx]
      simp only [Database.get_current_chat, get_user_create_ne db uid x hx]
  constructor
  · intro a b hab
    rw [hcreate a] at hab
    by_cases ha : a = uid
    · rw [if_pos ha] at hab
      exact Option.noConfusion hab
    · rw [if_neg ha] at hab
      have hba := hs a b hab
      have hb : b ≠ uid := by
        intro hb
        subst hb
        rw [hcur0] at hba
        exact Option.noConfusion hba
      rw [hcreate b, if_neg hb]
      exact hba
  · intro e he
    have hmem : e ∈ db.waiting_queue := he
    obtain ⟨hex, hcur⟩ := hq e hmem
    constructor
    · by_cases hx : e.user_id = uid
      · show Database.user_exists (Database.create_user db uid) e.user_id = true
        rw [hx]
        simp only [Database.user_exists, get_user_create_eq]
        rfl
      · show Database.user_exists (Database.create_user db uid) e.user_id = true
        simp only [Database.user_exists, get_user_create_ne db uid e.user_id hx]
        exact hex
    · rw [hcreate e.user_id]
      by_cases hx : e.user_id = uid
      · rw [if_pos hx]
      · rw [if_neg hx]
        exact hcur

/-- An update that keeps `current_chat_with` preserves the invariant. -/
theorem inv_update_keep (db : DB) (y : Nat) (f : UserDoc → UserDoc)
    (hf : ∀ u, (f u).current_chat_with = u.current_chat_with)
    (hInv : Inv db) : Inv (Database.update_user db y f) := by
  obtain ⟨hs, hq⟩ := hInv
  constructor
  · intro a b hab
    rw [get_current_chat_update_keep db y f hf a] at hab
    rw [get_current_chat_update_keep db y f hf b]
    exact hs a b hab
  · intro e he
    have hmem : e ∈ db.waiting_queue := he
    obtain ⟨hex, hcur⟩ := hq e hmem
    refine ⟨?_, ?_⟩
    · rw [user_exists_update]
      exact hex
    · rw [get_current_chat_update_keep db y f hf e.user_id]
      exact hcur

/-- Blocking keeps the invariant (only the flag changes). -/
theorem inv_block_user (db : DB) (uid : Nat) (hInv : Inv db) :
    Inv (Database.block_user db uid) :=
  inv_update_keep db uid _ (fun _ => rfl) hInv

/-- Filing a report keeps the invariant (only the report list and a
counter change). -/
theorem inv_create_report (db : DB) (r p : Nat) (reason : String) (hInv : Inv db) :
    Inv (Database.create_report db r p reason) := by
  have h1 : Inv { db with reports := db.reports ++ [⟨r, p, reason, false⟩] } := by
    obtain ⟨hs, hq⟩ := hInv
    exact ⟨fun a b hab => hs a b hab, fun e he => hq e he⟩
  exact inv_update_keep _ p _ (fun _ => rfl) h1

/-- `Database.end_chat` preserves the invariant. -/
theorem inv_end_chat_db (db : DB) (uid : Nat) (hInv : Inv db) :
    Inv (Database.end_chat db uid).2 := by
  obtain ⟨hs, hq⟩ := hInv
  cases hc : Database.get_current_chat db uid with
  | none =>
      rw [end_chat_none db uid hc]
      exact ⟨hs, hq⟩
  | some p =>
      by_cases hp : p = 0
      · subst hp
        rw [end_chat_zero db uid hc]
        exact ⟨hs, hq⟩
      · rw [end_chat_db_eq db uid p hc hp]
        have hpc : Database.get_current_chat db p = some uid := hs uid p hc
        have hU2uid : Database.get_current_chat
            (Database.update_user (Database.update_user db uid (fun u => { u with current_chat_with := none })) p (fun u => { u with current_chat_with := none })) uid = none := by
          by_cases hup : uid = p
          · rw [hup]
            exact get_current_chat_clear _ p
          · rw [get_current_chat_update_ne _ p uid _ hup]
            exact get_current_chat_clear db uid
        have hU2p : Database.get_current_chat
            (Database.update_user (Database.update_user db uid (fun u => { u with current_chat_with := none })) p (fun u => { u with current_chat_with := none })) p = none :=
          get_current_chat_clear _ p
        have hU2other : ∀ x, x ≠ uid → x ≠ p →
            Database.get_current_chat
              (Database.update_user (Database.update_user db uid (fun u => { u with current_chat_with := none })) p (fun u => { u with current_chat_with := none })) x =
            Database.get_current_chat db x := by
          intro x hx1 hx2
          rw [get_current_chat_update_ne _ p x _ hx2,
            get_current_chat_update_ne _ uid x _ hx1]
        constructor
        · intro a b hab
          rw [get_current_chat_set_chats] at hab
          rw [get_current_chat_set_chats]
          by_cases ha1 : a = uid
          · subst ha1
            rw [hU2uid] at hab
            exact Option.noConfusion hab
          · by_cases ha2 : a = p
            · subst ha2
              rw [hU2p] at hab
              exact Option.noConfusion hab
            · rw [hU2other a ha1 ha2] at hab
              have hba := hs a b hab
              have hb1 : b ≠ uid := by
                intro hb
                subst hb
                rw [hc] at hba
                exact ha2 (Option.some.inj hba).symm
              have hb2 : b ≠ p := by
                intro hb
                subst hb
                rw [hpc] at hba
                exact ha1 (Option.some.inj hba).symm
              rw [hU2other b hb1 hb2]
              exact hba
        · intro e he
          have hmem : e ∈ db.waiting_queue := he
          obtain ⟨hex, hcur⟩ := hq e hmem
          constructor
          · rw [user_exists_set_chats, user_exists_update, user_exists_update]
            exact hex
          · rw [get_current_chat_set_chats]
            by_cases h1 : e.user_id = uid
            · rw [h1]
              exact hU2uid
            · by_cases h2 : e.user_id = p
              · rw [h2]
                exact hU2p
              · rw [hU2other e.user_id h1 h2]
                exact hcur

/-- The start handler's state component. -/
theorem startHandler_state (st : BotState) (uid : Nat) :
    (startHandler st uid).1 =
      { st with db := if Database.user_exists st.db uid then st.db
                      else Database.create_user st.db uid } := by
  simp only [startHandler]
  split <;> split <;> rfl

/-- The start handler preserves the invariant. -/
theorem inv_startHandler (st : BotState) (uid : Nat) (hInv : Inv st.db) :
    Inv (startHandler st uid).1.db := by
  rw [startHandler_state]
  by_cases hex : Database.user_exists st.db uid = true
  · rw [if_pos hex]
    exact hInv
  · rw [if_neg hex]
    exact inv_create_user st.db uid hInv (bool_not_true hex)

/-- The search handler preserves the invariant when the searcher is
registered. -/
theorem inv_search (st : BotState) (uid : Nat) (now : Int) (hInv : Inv st.db)
    (hreg : Database.user_exists st.db uid = true) :
    Inv (search st uid now).1.db := by
  simp only [search]
  split
  · exact hInv
  · split
    · exact hInv
    · split
      · exact hInv
      · split
        · exact hInv
        · rename_i hb hcc hchat hqueue
          split
          · rename_i p heq
            split
            · rename_i hcond
              exact inv_pair st.db uid p hInv hreg
                (is_in_chat_false st.db uid (bool_not_true hchat))
                (bool_not_true hqueue) heq hcond.2
            · exact inv_enqueue st.db uid now hInv hreg
                (is_in_chat_false st.db uid (bool_not_true hchat))
          · exact inv_enqueue st.db uid now hInv hreg
              (is_in_chat_false st.db uid (bool_not_true hchat))

/-- The end-chat handler preserves the invariant. -/
theorem inv_endChatHandler (st : BotState) (uid : Nat) (hInv : Inv st.db) :
    Inv (endChatHandler st uid).1.db := by
  simp only [endChatHandler]
  split
  · split
    · exact inv_remove st.db uid hInv
    · exact hInv
  · exact inv_end_chat_db st.db uid hInv

/-- The report handler preserves the invariant. -/
theorem inv_reportHandler (st : BotState) (uid : Nat) (args : List String)
    (hInv : Inv st.db) :
    Inv (reportHandler st uid args).1.db := by
  simp only [reportHandler]
  split
  · exact hInv
  · split
    · exact hInv
    · split
      · rename_i p heq
        split
        · exact hInv
        · exact inv_create_report st.db uid p _ hInv
      · exact hInv

/-- The admin-block handler preserves the invariant. -/
theorem inv_adminBlockHandler (adminIds : List Nat) (st : BotState) (caller : Nat)
    (args : List Nat) (hInv : Inv st.db) :
    Inv (adminBlockHandler adminIds st caller args).1.db := by
  simp only [adminBlockHandler]
  split
  · exact hInv
  · split
    · exact hInv
    · split
      · exact hInv
      · exact inv_remove _ _ (inv_end_chat_db _ _ (inv_block_user st.db _ hInv))

/-! ### Claim C2: partner symmetry -/

/-- In the C1/C2 base state, nobody has a partner. -/
theorem c1_db0_current (a : Nat) : Database.get_current_chat c1_db0 a = none := by
  simp only [c1_db0, Database.get_current_chat, Database.get_user, assocFind]
  by_cases h1 : (1 : Nat) = a
  · rw [if_pos h1]; rfl
  · rw [if_neg h1]
    by_cases h2 : (2 : Nat) = a
    · rw [if_pos h2]; rfl
    · rw [if_neg h2]
      by_cases h3 : (3 : Nat) = a
      · rw [if_pos h3]; rfl
      · rw [if_neg h3]; rfl

/-- The C1/C2 base state satisfies the invariant. -/
theorem c1_db0_inv : Inv c1_db0 := by
  constructor
  · intro a b hab
    rw [c1_db0_current a] at hab
    exact Option.noConfusion hab
  · intro e he
    exact absurd he (List.not_mem_nil e)

/-- C2 counterexample: the state reached by `/start` from 6, then a search
by the never-registered identity 5, then a search by 6 is reachable, yet
identity 6's `current_chat_with` is 5 while identity 5 (who has no user
document) does not point back — the symmetry is broken because `search`
never registers the searcher. -/
theorem c2_counterexample :
    Reachable c2_trace ∧
    Database.get_current_chat c2_trace.db 6 = some 5 ∧
    Database.get_current_chat c2_trace.db 5 ≠ some 6 :=
  ⟨Reachable.step (Step.search 6 1)
      (Reachable.step (Step.search 5 0)
        (Reachable.step (Step.start 6) Reachable.init)),
    by decide, by decide⟩

/-- C2 (amended): on any state satisfying the symmetry invariant together
with the queue invariant (queued identities are registered and idle),
every operation — start, search by a registered identity, end-chat,
report, admin-block — preserves both invariants; and whenever
`Database.end_chat` completes returning a partner, both members'
`current_chat_with` fields are null afterwards. -/
theorem c2_partner_symmetry (st : BotState) (s : Step) (hInv : Inv st.db)
    (hreg : ∀ uid now, s = Step.search uid now →
      Database.user_exists st.db uid = true) :
    Inv (applyStep s st).db ∧
    (∀ uid p, (Database.end_chat st.db uid).1 = some p →
      Database.get_current_chat (Database.end_chat st.db uid).2 uid = none ∧
      Database.get_current_chat (Database.end_chat st.db uid).2 p = none) := by
  constructor
  · cases s with
    | start uid => exact inv_startHandler st uid hInv
    | search uid now => exact inv_search st uid now hInv (hreg uid now rfl)
    | endChat uid => exact inv_endChatHandler st uid hInv
    | report uid args => exact inv_reportHandler st uid args hInv
    | adminBlock adminIds caller args =>
        exact inv_adminBlockHandler adminIds st caller args hInv
  · intro uid p h
    obtain ⟨hc, hp⟩ := end_chat_some_inv st.db uid p h
    exact ⟨(end_chat_clears st.db uid p hc hp).2.1,
      (end_chat_clears st.db uid p hc hp).2.2.1⟩

/-- Witness for C2 (amended): the invariant survives a registered search
from the three-idle-user base state. -/
theorem c2_partner_symmetry_witness :
    Inv (applyStep (Step.search 1 0) c1_st0).db :=
  (c2_partner_symmetry c1_st0 (Step.search 1 0) c1_db0_inv
    (by intro uid now heq; cases heq; decide)).1

/-! ### Claim C7: reporting -/

/-- C7: an identity with no current partner gets `REPORT_NO_CHAT` and no
state change (so no report record and no counter change); an identity
paired with a partner filing a non-empty report appends exactly one
report naming the reporter and the current partner, and increments the
(registered) partner's `reports_count` by one. -/
theorem c7_report (st : BotState) (uid : Nat) (args : List String) :
    (Database.get_current_chat st.db uid = none →
      reportHandler st uid args = (st, [(uid, Out.reportNoChat)])) ∧
    (∀ p, Database.get_current_chat st.db uid = some p → p ≠ 0 → args ≠ [] →
      reportHandler st uid args =
        ({ st with db := Database.create_report st.db uid p (String.intercalate " " args) },
          [(uid, Out.reportSubmitted)]) ∧
      (Database.create_report st.db uid p (String.intercalate " " args)).reports =
        st.db.reports ++ [⟨uid, p, String.intercalate " " args, false⟩] ∧
      (∀ doc, Database.get_user st.db p = some doc →
        Database.get_user (Database.create_report st.db uid p (String.intercalate " " args)) p =
          some { doc with reports_count := doc.reports_count + 1 })) := by
  constructor
  · intro h
    have hin : Database.is_in_chat st.db uid = false := by
      simp [Database.is_in_chat, h]
    simp [reportHandler, hin]
  · intro p h hp hargs
    have hin : Database.is_in_chat st.db uid = true := by
      simp [Database.is_in_chat, h]
    have hne : args.isEmpty = false := by
      cases args with
      | nil => exact absurd rfl hargs
      | cons a as => rfl
    refine ⟨?_, rfl, ?_⟩
    · simp [reportHandler, hin, hne, h, hp]
    · intro doc hdoc
      simp only [Database.create_report]
      rw [get_user_update_eq]
      have hdoc' : Database.get_user { st.db with reports := st.db.reports ++ [⟨uid, p, String.intercalate " " args, false⟩] } p = some doc := hdoc
      rw [hdoc']
      rfl

/-- Witness for C7: identity 10, paired with 11, reports "spam". -/
theorem c7_report_witness :
    reportHandler c8_st0 10 ["spam"] =
      ({ c8_st0 with db := Database.create_report c8_st0.db 10 11 (String.intercalate " " ["spam"]) },
        [(10, Out.reportSubmitted)]) :=
  ((c7_report c8_st0 10 ["spam"]).2 11 (by decide) (by decide) (by decide)).1

/-! ### Claim C8: admin block -/

/-- C8 counterexample: blocking the paired identity 10 (admin 99) emits
only the confirmation to the admin — partner 11, though force-
disconnected, receives no message at all (the handler discards
`end_chat`'s returned partner id), contradicting "the partner receives a
disconnect notification". -/
theorem c8_counterexample :
    Database.get_current_chat c8_st0.db 10 = some 11 ∧
    (adminBlockHandler [99] c8_st0 99 [10]).2 = [(99, Out.adminUserBlocked)] ∧
    ((adminBlockHandler [99] c8_st0 99 [10]).2.all (fun o => o.1 ≠ 11)) = true := by
  decide

/-- Reduction of `admin_block` past its gates. -/
theorem adminBlockHandler_run (adminIds : List Nat) (st : BotState) (caller uid : Nat)
    (hadm : adminIds.contains caller = true)
    (hex : Database.user_exists st.db uid = true) :
    adminBlockHandler adminIds st caller [uid] =
      ({ st with db := Database.remove_from_queue (Database.end_chat (Database.block_user st.db uid) uid).2 uid },
        [(caller, Out.adminUserBlocked)]) := by
  have hadm' : caller ∈ adminIds := by simpa using hadm
  simp [adminBlockHandler, hadm', hex]

/-- C8 (amended): blocking a registered, paired identity marks it blocked,
clears both members' `current_chat_with`, leaves the identity out of the
queue, but emits only the admin confirmation (no disconnect notification
to the partner); and while the flag is set every `search` by that
identity is rejected with `BLOCKED_USER` and changes nothing, so the user
never re-enters the queue. -/
theorem c8_admin_block (adminIds : List Nat) (st : BotState) (caller uid p : Nat)
    (hadm : adminIds.contains caller = true)
    (hex : Database.user_exists st.db uid = true)
    (h : Database.get_current_chat st.db uid = some p) (hp : p ≠ 0) :
    Database.is_blocked (adminBlockHandler adminIds st caller [uid]).1.db uid = true ∧
    Database.get_current_chat (adminBlockHandler adminIds st caller [uid]).1.db uid = none ∧
    Database.get_current_chat (adminBlockHandler adminIds st caller [uid]).1.db p = none ∧
    Database.is_in_queue (adminBlockHandler adminIds st caller [uid]).1.db uid = false ∧
    (adminBlockHandler adminIds st caller [uid]).2 = [(caller, Out.adminUserBlocked)] ∧
    (∀ st2 now, Database.is_blocked st2.db uid = true →
      search st2 uid now = (st2, [(uid, Out.blockedUser)])) := by
  have hrun := adminBlockHandler_run adminIds st caller uid hadm hex
  have hcur1 : Database.get_current_chat (Database.block_user st.db uid) uid = some p := by
    simp only [Database.block_user]
    rw [get_current_chat_update_keep st.db uid (fun u => { u with blocked := true })
      (fun _ => rfl) uid]
    exact h
  have hclears := end_chat_clears (Database.block_user st.db uid) uid p hcur1 hp
  refine ⟨?_, ?_, ?_, ?_, ?_, ?_⟩
  · rw [hrun]
    show Database.is_blocked (Database.end_chat (Database.block_user st.db uid) uid).2 uid = true
    rw [end_chat_db_eq (Database.block_user st.db uid) uid p hcur1 hp]
    show Database.is_blocked (Database.update_user (Database.update_user (Database.block_user st.db uid) uid (fun u => { u with current_chat_with := none })) p (fun u => { u with current_chat_with := none })) uid = true
    rw [is_blocked_update_keep _ p (fun u => { u with current_chat_with := none })
        (fun _ => rfl) uid,
      is_blocked_update_keep _ uid (fun u => { u with current_chat_with := none })
        (fun _ => rfl) uid]
    exact is_blocked_block_user st.db uid hex
  · rw [hrun]
    exact hclears.2.1
  · rw [hrun]
    exact hclears.2.2.1
  · rw [hrun]
    exact is_in_queue_remove_self _ uid
  · rw [hrun]
  · intro st2 now hbl
    simp [search, hbl]

/-- Witness for C8 (amended): blocking identity 10 while paired with 11. -/
theorem c8_admin_block_witness :
    Database.is_blocked (adminBlockHandler [99] c8_st0 99 [10]).1.db 10 = true ∧
    Database.get_current_chat (adminBlockHandler [99] c8_st0 99 [10]).1.db 10 = none ∧
    Database.get_current_chat (adminBlockHandler [99] c8_st0 99 [10]).1.db 11 = none ∧
    Database.is_in_queue (adminBlockHandler [99] c8_st0 99 [10]).1.db 10 = false ∧
    (adminBlockHandler [99] c8_st0 99 [10]).2 = [(99, Out.adminUserBlocked)] := by
  have hmain := c8_admin_block [99] c8_st0 99 10 11 (by decide) (by decide) (by decide)
    (by decide)
  exact ⟨hmain.1, hmain.2.1, hmain.2.2.1, hmain.2.2.2.1, hmain.2.2.2.2.1⟩

end RandomChatBot
